import Mathlib

/-!
# Verification of the blockHUNT funding ledger and settlement orchestrator

A shallow embedding of `src/contracts/HackathonFunding.sol` (the ledger
contract) and of the four settlement handlers of `src/server/server.js`
(`/end`, `/fund`, `/set-winners`, `/distribute`), together with proofs of
the specified properties.

Conventions of the embedding:
* `uint256` values and addresses are modelled as `Nat` (the zero address is
  `0`).  All arithmetic performed by the contract on the claim-relevant
  paths (`T*50/100`, `T*30/100`, `T*70/100`, the subtractions producing the
  remainder, and the running sum) stays far below `2^256` whenever the
  inputs do, and the subtractions never underflow (proved below), so plain
  `Nat` arithmetic coincides with Solidity 0.8 checked arithmetic on every
  execution that does not revert.
* A reverting call is an `Except.error`: the caller keeps the pre-state and
  observes no events, which is exactly the EVM's transactional rollback.
* `msg.sender` and `msg.value` are explicit arguments.
* External ETH transfers always succeed in the model; a failing transfer in
  the real contract reverts the whole call, i.e. collapses to the
  `Except.error` case already covered.
* `distributePrizes` additionally returns the ordered trace of its
  externally observable micro-steps (`Action`s: external value-transfer
  calls and state commits), used for the temporal claims.
-/

namespace BlockHunt

/-- The per-hackathon struct of `HackathonFunding.sol` (lines 10–17).
`exists` is a Lean keyword, so the field is named `existsFlag`. -/
structure Hackathon where
  totalFunding : Nat
  isFunded : Bool
  prizesDistributed : Bool
  isEnded : Bool
  winners : List Nat
  existsFlag : Bool
deriving DecidableEq

/-- The zero-initialised struct a Solidity mapping yields for an untouched key. -/
def emptyHackathon : Hackathon :=
  { totalFunding := 0, isFunded := false, prizesDistributed := false,
    isEnded := false, winners := [], existsFlag := false }

/-- The full storage of the contract plus its ETH balance and the
`Pausable` flag inherited from OpenZeppelin. -/
structure ContractState where
  organizer : Nat
  hackathons : Nat → Hackathon
  activeHackathons : List Nat
  balance : Nat
  paused : Bool

/-- Point-update of the `hackathons` mapping. -/
def setHack (m : Nat → Hackathon) (id : Nat) (h : Hackathon) : Nat → Hackathon :=
  fun j => if j = id then h else m j

/-- The events of the contract (lines 22–27). -/
inductive Event
  | HackathonCreated (id : Nat)
  | Funded (id amount : Nat)
  | WinnersSet (id : Nat) (winners : List Nat)
  | PrizeDistributed (id winner amount : Nat)
  | HackathonEnded (id : Nat)
  | Withdrawn (organizer amount : Nat)
deriving DecidableEq

/-- Externally observable micro-steps of `distributePrizes`, in execution
order: an external call transferring value to a recipient, the write
`prizesDistributed := true`, and the removal from `activeHackathons`. -/
inductive Action
  | extCall (recipient amount : Nat)
  | writeDistributed
  | writeActiveRemove
deriving DecidableEq

def Action.isCall : Action → Bool
  | .extCall _ _ => true
  | _ => false

/-- The state the contract starts in: `constructor()` stores the deployer as
organizer; every mapping entry is zero-initialised. -/
def initState (org : Nat) : ContractState :=
  { organizer := org, hackathons := fun _ => emptyHackathon,
    activeHackathons := [], balance := 0, paused := false }

/-- `fundHackathon` (lines 43–56).  Note the source order: the `exists`
flag is set (and the creation event produced) *before* the
`already funded` / `msg.value > 0` checks; a failing check reverts the
whole call, creation included. -/
def fundHackathon (s : ContractState) (sender value hackathonId : Nat) :
    Except String (ContractState × List Event) :=
  if sender ≠ s.organizer then .error "Only organizer can call this"
  else if s.paused then .error "Pausable: paused"
  else
    let h0 := s.hackathons hackathonId
    let createdEvents : List Event :=
      if h0.existsFlag then [] else [.HackathonCreated hackathonId]
    let h1 : Hackathon := { h0 with existsFlag := true }
    if h1.isFunded then .error "Hackathon already funded"
    else if value = 0 then .error "Must send some ETH"
    else
      .ok ({ s with
              hackathons := setHack s.hackathons hackathonId
                { h1 with totalFunding := value, isFunded := true },
              activeHackathons := s.activeHackathons ++ [hackathonId],
              balance := s.balance + value },
           createdEvents ++ [.Funded hackathonId value])

/-- The nested duplicate/zero-address loop of `setWinners` (lines 70–75):
for each index `i`, require `winners[i] ≠ address(0)` and
`winners[i] ≠ winners[j]` for every `j > i`. -/
def checkWinnersLoop : List Nat → Except String Unit
  | [] => .ok ()
  | w :: rest =>
    if w = 0 then .error "Invalid winner address"
    else if rest.any (fun x => x = w) then .error "Duplicate winner address"
    else checkWinnersLoop rest

/-- `setWinners` (lines 58–79). -/
def setWinners (s : ContractState) (sender hackathonId : Nat) (ws : List Nat) :
    Except String (ContractState × List Event) :=
  if sender ≠ s.organizer then .error "Only organizer can call this"
  else if s.paused then .error "Pausable: paused"
  else if ¬ (s.hackathons hackathonId).existsFlag then .error "Hackathon does not exist"
  else if ¬ (s.hackathons hackathonId).isFunded then .error "Hackathon must be funded"
  else if (s.hackathons hackathonId).prizesDistributed then .error "Prizes already distributed"
  else if ¬ (1 ≤ ws.length ∧ ws.length ≤ 3) then .error "Must select 1-3 winners"
  else
    match checkWinnersLoop ws with
    | .error e => .error e
    | .ok _ =>
      .ok ({ s with
              hackathons := setHack s.hackathons hackathonId
                { s.hackathons hackathonId with winners := ws } },
           [.WinnersSet hackathonId ws])

/-- The events produced by `_safeTransfer` (lines 179–185): a
`PrizeDistributed` event is emitted only when `hackathonId > 0`; the id `0`
is the sentinel `withdraw` passes to suppress the event. -/
def safeTransferEvents (recipient amount hackathonId : Nat) : List Event :=
  if hackathonId > 0 then [.PrizeDistributed hackathonId recipient amount] else []

/-- The `(recipient, amount)` pairs of `distributePrizes` (lines 95–122) in
transfer-execution order.  Every amount is computed from `totalFunding`
before the branch's transfers run, exactly as in the source.  The final
`else` branch of the source handles every winner count other than 2 and 3
by paying `winners[0]` the whole `totalFunding`. -/
def payoutShares (h : Hackathon) : List (Nat × Nat) :=
  if h.winners.length = 3 then
    [(h.winners.getD 0 0, h.totalFunding * 50 / 100),
     (h.winners.getD 1 0, h.totalFunding * 30 / 100),
     (h.winners.getD 2 0,
       h.totalFunding - h.totalFunding * 50 / 100 - h.totalFunding * 30 / 100)]
  else if h.winners.length = 2 then
    [(h.winners.getD 0 0, h.totalFunding * 70 / 100),
     (h.winners.getD 1 0, h.totalFunding - h.totalFunding * 70 / 100)]
  else
    [(h.winners.getD 0 0, h.totalFunding)]

/-- The first-occurrence swap-with-last-and-pop loop
`_removeActiveHackathon` (lines 188–198).  The loop scans for the first
index holding `hackathonId`; if found it overwrites that slot with the last
element (unless it *is* the last slot) and pops the array, then breaks. -/
def _removeActiveHackathon (l : List Nat) (hackathonId : Nat) : List Nat :=
  if hackathonId ∈ l then
    (if l.indexOf hackathonId ≠ l.length - 1
     then l.set (l.indexOf hackathonId) (l.getD (l.length - 1) 0)
     else l).dropLast
  else l

/-- `distributePrizes` (lines 81–129).  The result carries the post-state,
the emitted events, and the ordered `Action` trace.  The source interleaves
each `_safeTransfer` with the `totalDistributed` accumulation; since each
amount is a pure function of `totalFunding`, the accumulated sum equals the
sum over `payoutShares`, and the `require(totalDistributed == totalFunding)`
check (line 124) is kept verbatim.  The state commits
(`prizesDistributed := true`, line 125; index removal, line 128) come after
all transfers, as in the source. -/
def distributePrizes (s : ContractState) (sender hackathonId : Nat) :
    Except String (ContractState × List Event × List Action) :=
  if sender ≠ s.organizer then .error "Only organizer can call this"
  else if s.paused then .error "Pausable: paused"
  else if ¬ (s.hackathons hackathonId).existsFlag then .error "Hackathon does not exist"
  else if ¬ (s.hackathons hackathonId).isFunded then .error "Hackathon must be funded"
  else if (s.hackathons hackathonId).winners.length = 0 then .error "Winners not set"
  else if (s.hackathons hackathonId).prizesDistributed then .error "Prizes already distributed"
  else if ¬ (s.hackathons hackathonId).isEnded then .error "Hackathon must be ended"
  else if s.balance < (s.hackathons hackathonId).totalFunding then
    .error "Insufficient contract balance"
  else if ((payoutShares (s.hackathons hackathonId)).map (fun p => p.2)).sum ≠
      (s.hackathons hackathonId).totalFunding then .error "Distribution mismatch"
  else
    .ok ({ s with
            hackathons := setHack s.hackathons hackathonId
              { s.hackathons hackathonId with prizesDistributed := true },
            activeHackathons := _removeActiveHackathon s.activeHackathons hackathonId,
            balance := s.balance -
              ((payoutShares (s.hackathons hackathonId)).map (fun p => p.2)).sum },
         (payoutShares (s.hackathons hackathonId)).flatMap
           (fun p => safeTransferEvents p.1 p.2 hackathonId),
         (payoutShares (s.hackathons hackathonId)).map (fun p => Action.extCall p.1 p.2)
           ++ [Action.writeDistributed, Action.writeActiveRemove])

/-- `endHackathon` (lines 131–141). -/
def endHackathon (s : ContractState) (sender hackathonId : Nat) :
    Except String (ContractState × List Event) :=
  if sender ≠ s.organizer then .error "Only organizer can call this"
  else if s.paused then .error "Pausable: paused"
  else if ¬ (s.hackathons hackathonId).existsFlag then .error "Hackathon does not exist"
  else if (s.hackathons hackathonId).isEnded then .error "Hackathon already ended"
  else
    .ok ({ s with
            hackathons := setHack s.hackathons hackathonId
              { s.hackathons hackathonId with isEnded := true } },
         [.HackathonEnded hackathonId])

/-- `withdraw` (lines 156–168): requires the active index empty and a
positive balance, then `_safeTransfer(organizer, balance, 0)` (no
`PrizeDistributed` event, id `0`) and `Withdrawn`. -/
def withdraw (s : ContractState) (sender : Nat) :
    Except String (ContractState × List Event) :=
  if sender ≠ s.organizer then .error "Only organizer can call this"
  else if s.paused then .error "Pausable: paused"
  else if s.activeHackathons.length ≠ 0 then .error "Cannot withdraw while prizes are pending"
  else if s.balance = 0 then .error "No funds to withdraw"
  else
    .ok ({ s with balance := 0 },
         safeTransferEvents s.organizer s.balance 0 ++ [.Withdrawn s.organizer s.balance])

/-- `pause` (lines 170–172); OpenZeppelin `_pause` itself requires the
contract not already paused. -/
def pause (s : ContractState) (sender : Nat) :
    Except String (ContractState × List Event) :=
  if sender ≠ s.organizer then .error "Only organizer can call this"
  else if s.paused then .error "Pausable: paused"
  else .ok ({ s with paused := true }, [])

/-- `unpause` (lines 174–176); OpenZeppelin `_unpause` requires the
contract paused. -/
def unpause (s : ContractState) (sender : Nat) :
    Except String (ContractState × List Event) :=
  if sender ≠ s.organizer then .error "Only organizer can call this"
  else if ¬ s.paused then .error "Pausable: not paused"
  else .ok ({ s with paused := false }, [])

/-- One external transaction against the contract.  `receiveOp` is the
empty `receive() external payable {}` of line 200: it accepts a plain ETH
transfer, increasing the balance and touching nothing else. -/
inductive Op
  | fund (sender value id : Nat)
  | setW (sender id : Nat) (ws : List Nat)
  | distribute (sender id : Nat)
  | endH (sender id : Nat)
  | withdrawOp (sender : Nat)
  | pauseOp (sender : Nat)
  | unpauseOp (sender : Nat)
  | receiveOp (value : Nat)

/-- Execute one transaction: a revert (`Except.error`) rolls everything
back, leaving the pre-state and no events. -/
def stepE (s : ContractState) : Op → ContractState × List Event
  | .fund sender value id =>
    match fundHackathon s sender value id with
    | .ok r => r
    | .error _ => (s, [])
  | .setW sender id ws =>
    match setWinners s sender id ws with
    | .ok r => r
    | .error _ => (s, [])
  | .distribute sender id =>
    match distributePrizes s sender id with
    | .ok (s', ev, _) => (s', ev)
    | .error _ => (s, [])
  | .endH sender id =>
    match endHackathon s sender id with
    | .ok r => r
    | .error _ => (s, [])
  | .withdrawOp sender =>
    match withdraw s sender with
    | .ok r => r
    | .error _ => (s, [])
  | .pauseOp sender =>
    match pause s sender with
    | .ok r => r
    | .error _ => (s, [])
  | .unpauseOp sender =>
    match unpause s sender with
    | .ok r => r
    | .error _ => (s, [])
  | .receiveOp value => ({ s with balance := s.balance + value }, [])

/-- The state after one transaction. -/
def step (s : ContractState) (op : Op) : ContractState := (stepE s op).1

/-- The events durably observed from one transaction (none on a revert). -/
def stepEvents (s : ContractState) (op : Op) : List Event := (stepE s op).2

/-- The state after a sequence of transactions. -/
def run (s : ContractState) (ops : List Op) : ContractState := ops.foldl step s

/-- A state is reachable when some transaction sequence produces it from
the freshly deployed contract. -/
def Reachable (org : Nat) (s : ContractState) : Prop :=
  ∃ ops, run (initState org) ops = s

/-- Whether a call succeeded. -/
def exceptOk {α : Type} : Except String α → Bool
  | .ok _ => true
  | .error _ => false

/-- The events of a `distributePrizes` result (none on a revert). -/
def distEvents (r : Except String (ContractState × List Event × List Action)) : List Event :=
  match r with
  | .ok (_, ev, _) => ev
  | .error _ => []

/-- The action trace of a `distributePrizes` result (empty on a revert). -/
def distActions (r : Except String (ContractState × List Event × List Action)) : List Action :=
  match r with
  | .ok (_, _, tr) => tr
  | .error _ => []

/-- Number of `PrizeDistributed` events in a list. -/
def countPrize (evs : List Event) : Nat :=
  (evs.filter fun e => match e with | .PrizeDistributed _ _ _ => true | _ => false).length

/-- The transfer amounts of an action trace, in execution order. -/
def transferAmounts (tr : List Action) : List Nat :=
  tr.filterMap fun a => match a with | .extCall _ amt => some amt | _ => none

/-- "Every state commit precedes every external call": once a call has
happened, everything later must also be a call. -/
def writesBeforeCallsB : List Action → Bool
  | [] => true
  | a :: rest =>
    (if a.isCall then rest.all (fun b => b.isCall) else true) && writesBeforeCallsB rest

/-- "Every external call precedes every state commit": once a commit has
happened, everything later must also be a commit. -/
def callsBeforeWritesB : List Action → Bool
  | [] => true
  | a :: rest =>
    (if a.isCall then true else rest.all (fun b => !b.isCall)) && callsBeforeWritesB rest

/-! ## The settlement orchestrator (`src/server/server.js`)

Each handler is embedded as a pure function of the projection row read from
the database, the authenticated user, and the outcome of the ledger
submission-and-confirmation span (`await contract.X(...)` followed by
`await tx.wait()`): a thrown submission error, revert, or confirmation
timeout is the `Except.error` case, which the handler's `catch` turns into
a 500 response without reaching the `UPDATE` query.  The returned pair is
(HTTP response, projection row after the handler). -/

/-- The mirrored subset of a `hackathons` row that the four settlement
handlers read and write (see `src/sql/scheme.sql` and the `UPDATE`
statements in `server.js`).  `winners` is stored as a JSON list of
addresses. -/
structure ProjectionRecord where
  organizer_id : Nat
  manually_ended : Bool
  manually_ended_at : Option Nat
  status : String
  funded_amount : Nat
  funded_at : Option Nat
  winners : Option (List Nat)
  prizes_distributed : Bool
  prizes_distributed_at : Option Nat
deriving DecidableEq

inductive HandlerResult
  | success (msg : String)
  | failure (code : Nat) (msg : String)
deriving DecidableEq

def HandlerResult.isFailure : HandlerResult → Bool
  | .success _ => false
  | .failure _ _ => true

/-- `POST /api/hackathons/:id/end` (server.js lines 722–765). -/
def endHandler (db : Option ProjectionRecord) (uid : Nat) (role : String)
    (ledger : Except String Unit) (now : Nat) :
    HandlerResult × Option ProjectionRecord :=
  if role ≠ "organizer" then (.failure 403 "Only organizers can end hackathons", db)
  else
    match db with
    | none => (.failure 404 "Hackathon not found", db)
    | some h =>
      if h.organizer_id ≠ uid then
        (.failure 403 "Only the hackathon organizer can end it", db)
      else if h.manually_ended then
        (.failure 400 "Hackathon has already been ended", db)
      else
        match ledger with
        | .error e => (.failure 500 e, db)
        | .ok _ =>
          (.success "Hackathon ended successfully",
           some { h with manually_ended := true, manually_ended_at := some now,
                         status := "ended" })

/-- `POST /api/hackathons/:id/fund` (server.js lines 767–810). -/
def fundHandler (db : Option ProjectionRecord) (uid : Nat) (role : String)
    (amount : Nat) (ledger : Except String Unit) (now : Nat) :
    HandlerResult × Option ProjectionRecord :=
  if role ≠ "organizer" then (.failure 403 "Only organizers can fund hackathons", db)
  else
    match db with
    | none => (.failure 404 "Hackathon not found", db)
    | some h =>
      if h.organizer_id ≠ uid then
        (.failure 403 "Only the hackathon organizer can fund it", db)
      else if ¬ h.manually_ended then
        (.failure 400 "Hackathon must be ended before funding", db)
      else if h.funded_amount > 0 then
        (.failure 400 "Hackathon is already funded", db)
      else
        match ledger with
        | .error e => (.failure 500 e, db)
        | .ok _ =>
          (.success "Hackathon funded successfully",
           some { h with funded_amount := amount, funded_at := some now })

/-- `POST /api/hackathons/:id/set-winners` (server.js lines 812–869).
`isAddress` abstracts `ethers.isAddress`; a syntactically invalid address
throws inside the `try`, landing in the 500 `catch` before any ledger
call. -/
def setWinnersHandler (db : Option ProjectionRecord) (uid : Nat) (role : String)
    (winners : List Nat) (isAddress : Nat → Bool) (ledger : Except String Unit) :
    HandlerResult × Option ProjectionRecord :=
  if role ≠ "organizer" then (.failure 403 "Only organizers can set winners", db)
  else if winners.length = 0 then (.failure 400 "Winners array is required", db)
  else
    match db with
    | none => (.failure 404 "Hackathon not found", db)
    | some h =>
      if h.organizer_id ≠ uid then
        (.failure 403 "Only the hackathon organizer can set winners", db)
      else if ¬ h.manually_ended then
        (.failure 400 "Hackathon must be ended before setting winners", db)
      else if h.funded_amount = 0 then
        (.failure 400 "Hackathon must be funded before setting winners", db)
      else if ¬ winners.all isAddress then
        (.failure 500 "Invalid Ethereum address", db)
      else
        match ledger with
        | .error e => (.failure 500 e, db)
        | .ok _ =>
          (.success "Winners set successfully", some { h with winners := some winners })

/-- `POST /api/hackathons/:id/distribute` (server.js lines 871–925). -/
def distributeHandler (db : Option ProjectionRecord) (uid : Nat) (role : String)
    (ledger : Except String Unit) (now : Nat) :
    HandlerResult × Option ProjectionRecord :=
  if role ≠ "organizer" then (.failure 403 "Only organizers can distribute prizes", db)
  else
    match db with
    | none => (.failure 404 "Hackathon not found", db)
    | some h =>
      if h.organizer_id ≠ uid then
        (.failure 403 "Only the hackathon organizer can distribute prizes", db)
      else if ¬ h.manually_ended then
        (.failure 400 "Hackathon must be ended before distributing prizes", db)
      else if h.funded_amount = 0 then
        (.failure 400 "Hackathon must be funded before distributing prizes", db)
      else if (h.winners.getD []).length = 0 then
        (.failure 400 "Winners must be selected before distributing prizes", db)
      else
        match ledger with
        | .error e => (.failure 500 e, db)
        | .ok _ =>
          (.success "Prizes distributed successfully",
           some { h with prizes_distributed := true, prizes_distributed_at := some now })

/-! ## Concrete states used by the closed instance theorems -/

/-- A reachable state with a funded (101 wei), ended hackathon `2` whose
three winners are set. -/
def exState : ContractState :=
  run (initState 1) [.fund 1 101 2, .endH 1 2, .setW 1 2 [11, 12, 13]]

/-- A reachable state with a funded, ended hackathon at id `0` with one
winner: the id the `_safeTransfer` event sentinel collides with. -/
def zState : ContractState :=
  run (initState 1) [.fund 1 100 0, .endH 1 0, .setW 1 0 [5]]

/-- A reachable state with a funded (40 wei), ended, two-winner hackathon `7`. -/
def twoState : ContractState :=
  run (initState 1) [.fund 1 40 7, .endH 1 7, .setW 1 7 [21, 22]]

/-- A reachable state with a funded hackathon `3` whose winner is set but
which is not ended. -/
def notEndedState : ContractState :=
  run (initState 1) [.fund 1 50 3, .setW 1 3 [4]]

/-- A reachable state with an empty active index and a positive balance
(42 wei deposited through `receive()`). -/
def wState : ContractState :=
  run (initState 1) [.receiveOp 42]

/-- The state after the full lifecycle of hackathon `2`: funded, ended,
winners set, prizes distributed. -/
def distState : ContractState :=
  run (initState 1) [.fund 1 101 2, .endH 1 2, .setW 1 2 [11, 12, 13], .distribute 1 2]

/-- A projection row for an ended, unfunded hackathon owned by user `9`. -/
def exProj : ProjectionRecord :=
  { organizer_id := 9, manually_ended := true, manually_ended_at := some 5,
    status := "ended", funded_amount := 0, funded_at := none,
    winners := none, prizes_distributed := false, prizes_distributed_at := none }

/-! ## Arithmetic of the payout split -/

lemma shares3_le (T : Nat) : T * 50 / 100 + T * 30 / 100 ≤ T := by
  have h1 : T * 50 / 100 * 100 ≤ T * 50 := Nat.div_mul_le_self _ _
  have h2 : T * 30 / 100 * 100 ≤ T * 30 := Nat.div_mul_le_self _ _
  omega

lemma shares2_le (T : Nat) : T * 70 / 100 ≤ T := by
  have h1 : T * 70 / 100 * 100 ≤ T * 70 := Nat.div_mul_le_self _ _
  omega

/-- The `require(totalDistributed == totalFunding)` check of line 124 can
never fail: in each branch the last share is the exact remainder. -/
lemma payoutShares_sum (h : Hackathon) :
    ((payoutShares h).map (fun p => p.2)).sum = h.totalFunding := by
  have h3 := shares3_le h.totalFunding
  have h2 := shares2_le h.totalFunding
  unfold payoutShares
  split_ifs <;> simp <;> omega

/-! ## Success characterizations of the contract operations -/

lemma fundHackathon_ok_iff (s : ContractState) (sender value id : Nat) :
    exceptOk (fundHackathon s sender value id) = true ↔
      (sender = s.organizer ∧ s.paused = false ∧
       (s.hackathons id).isFunded = false ∧ value ≠ 0) := by
  unfold fundHackathon exceptOk
  dsimp only
  split_ifs <;> simp_all

lemma fundHackathon_eq_ok (s : ContractState) (sender value id : Nat)
    (h1 : sender = s.organizer) (h2 : s.paused = false)
    (h3 : (s.hackathons id).isFunded = false) (h4 : value ≠ 0) :
    fundHackathon s sender value id =
      .ok ({ s with
              hackathons := setHack s.hackathons id
                { s.hackathons id with
                    existsFlag := true, totalFunding := value, isFunded := true },
              activeHackathons := s.activeHackathons ++ [id],
              balance := s.balance + value },
           (if (s.hackathons id).existsFlag then ([] : List Event)
            else [.HackathonCreated id]) ++ [.Funded id value]) := by
  unfold fundHackathon
  dsimp only
  split_ifs <;> simp_all

lemma checkWinnersLoop_ok (ws : List Nat) :
    checkWinnersLoop ws = .ok () ↔ ((∀ w ∈ ws, w ≠ 0) ∧ ws.Nodup) := by
  induction ws with
  | nil => simp [checkWinnersLoop]
  | cons w rest ih =>
    simp only [checkWinnersLoop]
    split_ifs with hz hd
    · simp [hz]
    · simp only [List.any_eq_true, decide_eq_true_eq] at hd
      obtain ⟨x, hx, hxw⟩ := hd
      subst hxw
      simp only [List.nodup_cons]
      constructor
      · intro hc
        exact absurd hc (by simp)
      · rintro ⟨-, hnm, -⟩
        exact absurd hx hnm
    · simp only [List.any_eq_true, decide_eq_true_eq] at hd
      push_neg at hd
      rw [ih]
      simp only [List.mem_cons, List.nodup_cons]
      constructor
      · rintro ⟨hnz, hnd⟩
        refine ⟨?_, ?_, hnd⟩
        · rintro x (rfl | hx)
          · exact hz
          · exact hnz x hx
        · intro hmem
          exact hd w hmem rfl
      · rintro ⟨hnz, _, hnd⟩
        exact ⟨fun x hx => hnz x (Or.inr hx), hnd⟩

lemma setWinners_ok_iff (s : ContractState) (sender id : Nat) (ws : List Nat) :
    exceptOk (setWinners s sender id ws) = true ↔
      (sender = s.organizer ∧ s.paused = false ∧
       (s.hackathons id).existsFlag = true ∧
       (s.hackathons id).isFunded = true ∧
       (s.hackathons id).prizesDistributed = false ∧
       1 ≤ ws.length ∧ ws.length ≤ 3 ∧ (∀ w ∈ ws, w ≠ 0) ∧ ws.Nodup) := by
  cases hcw : checkWinnersLoop ws with
  | ok u =>
    cases u
    have hprop := (checkWinnersLoop_ok ws).mp hcw
    unfold setWinners exceptOk
    dsimp only
    rw [hcw]
    dsimp only
    split_ifs <;> simp_all
  | error e =>
    have hne : ¬ ((∀ w ∈ ws, w ≠ 0) ∧ ws.Nodup) := by
      intro hPQ
      have heq := (checkWinnersLoop_ok ws).mpr hPQ
      rw [heq] at hcw
      exact Except.noConfusion hcw
    unfold setWinners exceptOk
    dsimp only
    rw [hcw]
    dsimp only
    split_ifs <;> simp_all

lemma setWinners_eq_ok (s : ContractState) (sender id : Nat) (ws : List Nat)
    (hok : exceptOk (setWinners s sender id ws) = true) :
    setWinners s sender id ws =
      .ok ({ s with
              hackathons := setHack s.hackathons id
                { s.hackathons id with winners := ws } },
           [.WinnersSet id ws]) := by
  have h := (setWinners_ok_iff s sender id ws).mp hok
  obtain ⟨h1, h2, h3, h4, h5, h6, h7, h8, h9⟩ := h
  have hcw : checkWinnersLoop ws = .ok () := (checkWinnersLoop_ok ws).mpr ⟨h8, h9⟩
  unfold setWinners
  dsimp only
  rw [hcw]
  dsimp only
  split_ifs <;> simp_all

lemma distributePrizes_ok_iff (s : ContractState) (sender id : Nat) :
    exceptOk (distributePrizes s sender id) = true ↔
      (sender = s.organizer ∧ s.paused = false ∧
       (s.hackathons id).existsFlag = true ∧
       (s.hackathons id).isFunded = true ∧
       (s.hackathons id).winners.length ≠ 0 ∧
       (s.hackathons id).prizesDistributed = false ∧
       (s.hackathons id).isEnded = true ∧
       (s.hackathons id).totalFunding ≤ s.balance) := by
  have hsum := payoutShares_sum (s.hackathons id)
  unfold distributePrizes exceptOk
  dsimp only
  rw [hsum, if_neg (not_not_intro rfl)]
  split_ifs <;> simp_all [Nat.not_lt]

lemma distributePrizes_eq_ok (s : ContractState) (sender id : Nat)
    (hok : exceptOk (distributePrizes s sender id) = true) :
    distributePrizes s sender id =
      .ok ({ s with
              hackathons := setHack s.hackathons id
                { s.hackathons id with prizesDistributed := true },
              activeHackathons := _removeActiveHackathon s.activeHackathons id,
              balance := s.balance - (s.hackathons id).totalFunding },
           (payoutShares (s.hackathons id)).flatMap
             (fun p => safeTransferEvents p.1 p.2 id),
           (payoutShares (s.hackathons id)).map (fun p => Action.extCall p.1 p.2)
             ++ [Action.writeDistributed, Action.writeActiveRemove]) := by
  have hsum := payoutShares_sum (s.hackathons id)
  have h := (distributePrizes_ok_iff s sender id).mp hok
  obtain ⟨h1, h2, h3, h4, h5, h6, h7, h8⟩ := h
  unfold distributePrizes
  dsimp only
  rw [hsum, if_neg (not_not_intro rfl)]
  split_ifs <;> simp_all [Nat.not_lt] <;> omega

lemma endHackathon_ok_iff (s : ContractState) (sender id : Nat) :
    exceptOk (endHackathon s sender id) = true ↔
      (sender = s.organizer ∧ s.paused = false ∧
       (s.hackathons id).existsFlag = true ∧ (s.hackathons id).isEnded = false) := by
  unfold endHackathon exceptOk
  dsimp only
  split_ifs <;> simp_all

lemma endHackathon_eq_ok (s : ContractState) (sender id : Nat)
    (hok : exceptOk (endHackathon s sender id) = true) :
    endHackathon s sender id =
      .ok ({ s with
              hackathons := setHack s.hackathons id
                { s.hackathons id with isEnded := true } },
           [.HackathonEnded id]) := by
  have h := (endHackathon_ok_iff s sender id).mp hok
  obtain ⟨h1, h2, h3, h4⟩ := h
  unfold endHackathon
  dsimp only
  split_ifs <;> simp_all

lemma withdraw_ok_iff (s : ContractState) (sender : Nat) :
    exceptOk (withdraw s sender) = true ↔
      (sender = s.organizer ∧ s.paused = false ∧
       s.activeHackathons = [] ∧ s.balance ≠ 0) := by
  unfold withdraw exceptOk
  split_ifs <;> simp_all [List.length_eq_zero]

lemma withdraw_eq_ok (s : ContractState) (sender : Nat)
    (hok : exceptOk (withdraw s sender) = true) :
    withdraw s sender =
      .ok ({ s with balance := 0 }, [.Withdrawn s.organizer s.balance]) := by
  have h := (withdraw_ok_iff s sender).mp hok
  obtain ⟨h1, h2, h3, h4⟩ := h
  unfold withdraw
  split_ifs <;> simp_all [safeTransferEvents]

lemma pause_cases (s : ContractState) (sender : Nat) :
    pause s sender = .ok ({ s with paused := true }, []) ∨
      exceptOk (pause s sender) = false := by
  unfold pause exceptOk
  split_ifs <;> simp

lemma unpause_cases (s : ContractState) (sender : Nat) :
    unpause s sender = .ok ({ s with paused := false }, []) ∨
      exceptOk (unpause s sender) = false := by
  unfold unpause exceptOk
  split_ifs <;> simp

/-! ## Transaction-level lemmas: a revert rolls the whole call back -/

lemma stepE_fund_error (s : ContractState) (sender value id : Nat)
    (h : exceptOk (fundHackathon s sender value id) = false) :
    stepE s (.fund sender value id) = (s, []) := by
  simp only [stepE]
  cases hE : fundHackathon s sender value id with
  | ok r => rw [hE] at h; simp [exceptOk] at h
  | error e => rfl

lemma stepE_setW_error (s : ContractState) (sender id : Nat) (ws : List Nat)
    (h : exceptOk (setWinners s sender id ws) = false) :
    stepE s (.setW sender id ws) = (s, []) := by
  simp only [stepE]
  cases hE : setWinners s sender id ws with
  | ok r => rw [hE] at h; simp [exceptOk] at h
  | error e => rfl

lemma stepE_distribute_error (s : ContractState) (sender id : Nat)
    (h : exceptOk (distributePrizes s sender id) = false) :
    stepE s (.distribute sender id) = (s, []) := by
  simp only [stepE]
  cases hE : distributePrizes s sender id with
  | ok r => rw [hE] at h; simp [exceptOk] at h
  | error e => rfl

lemma stepE_endH_error (s : ContractState) (sender id : Nat)
    (h : exceptOk (endHackathon s sender id) = false) :
    stepE s (.endH sender id) = (s, []) := by
  simp only [stepE]
  cases hE : endHackathon s sender id with
  | ok r => rw [hE] at h; simp [exceptOk] at h
  | error e => rfl

lemma stepE_withdraw_error (s : ContractState) (sender : Nat)
    (h : exceptOk (withdraw s sender) = false) :
    stepE s (.withdrawOp sender) = (s, []) := by
  simp only [stepE]
  cases hE : withdraw s sender with
  | ok r => rw [hE] at h; simp [exceptOk] at h
  | error e => rfl

/-! ## Swap-with-last-and-pop removal -/

lemma set_append_len (A B : List Nat) (x b : Nat) :
    (A ++ x :: B).set A.length b = A ++ b :: B := by
  induction A with
  | nil => rfl
  | cons a A ih => simp [List.set, ih]

lemma getD_concat (L : List Nat) (w : Nat) : (L ++ [w]).getD L.length 0 = w := by
  induction L with
  | nil => rfl
  | cons a L ih => simpa using ih

lemma indexOf_append_cons (A B : List Nat) (x : Nat) (hx : x ∉ A) :
    (A ++ x :: B).indexOf x = A.length := by
  induction A with
  | nil => simp
  | cons a A ih =>
    have hax : a ≠ x := by
      intro h
      exact hx (by simp [h])
    have hxA : x ∉ A := fun h => hx (List.mem_cons_of_mem _ h)
    simpa [List.indexOf_cons_ne _ hax] using ih hxA

/-- Under `Nodup`, the loop of `_removeActiveHackathon` computes a
permutation of `l.erase id`: it removes exactly the occurrence of `id`. -/
lemma removeActive_perm (l : List Nat) (id : Nat) (hnd : l.Nodup) :
    (_removeActiveHackathon l id).Perm (l.erase id) := by
  unfold _removeActiveHackathon
  split_ifs with hmem hlast
  · obtain ⟨A, B, rfl⟩ := List.append_of_mem hmem
    have hidAB : id ∉ A ∧ id ∉ B := by
      have h := List.nodup_middle.mp hnd
      rw [List.nodup_cons, List.mem_append] at h
      tauto
    rw [indexOf_append_cons A B id hidAB.1] at hlast ⊢
    rcases List.eq_nil_or_concat B with rfl | ⟨B', w, rfl⟩
    · exfalso
      apply hlast
      simp
    · rw [List.concat_eq_append] at hnd hmem hlast hidAB ⊢
      have hshape : A ++ id :: (B' ++ [w]) = (A ++ id :: B') ++ [w] := by simp
      have hlen : (A ++ id :: (B' ++ [w])).length - 1 = (A ++ id :: B').length := by
        simp
      have hgetD : (A ++ id :: (B' ++ [w])).getD ((A ++ id :: (B' ++ [w])).length - 1) 0 = w := by
        rw [hlen, hshape, getD_concat]
      rw [hgetD, set_append_len]
      have hdrop : (A ++ w :: (B' ++ [w])).dropLast = A ++ w :: B' := by
        have : A ++ w :: (B' ++ [w]) = (A ++ w :: B') ++ [w] := by simp
        rw [this, List.dropLast_concat]
      rw [hdrop, List.erase_append_right _ hidAB.1, List.erase_cons_head]
      exact List.Perm.append_left A (List.perm_append_singleton w B').symm
  · obtain ⟨A, B, rfl⟩ := List.append_of_mem hmem
    have hidAB : id ∉ A ∧ id ∉ B := by
      have h := List.nodup_middle.mp hnd
      rw [List.nodup_cons, List.mem_append] at h
      tauto
    rw [indexOf_append_cons A B id hidAB.1] at hlast
    have hB : B = [] := by
      by_contra hB
      have : 0 < B.length := List.length_pos.mpr hB
      simp only [List.length_append, List.length_cons] at hlast
      omega
    subst hB
    rw [List.erase_append_right _ hidAB.1, List.erase_cons_head, List.append_nil]
    rw [List.dropLast_concat]
  · rw [List.erase_of_not_mem hmem]

lemma removeActive_nodup (l : List Nat) (id : Nat) (hnd : l.Nodup) :
    (_removeActiveHackathon l id).Nodup :=
  ((removeActive_perm l id hnd).nodup_iff).mpr (hnd.erase id)

lemma mem_removeActive (l : List Nat) (id x : Nat) (hnd : l.Nodup) :
    x ∈ _removeActiveHackathon l id ↔ (x ∈ l ∧ x ≠ id) := by
  rw [(removeActive_perm l id hnd).mem_iff, List.Nodup.mem_erase_iff hnd]
  tauto

/-! ## Step equations and the active-index invariant -/

lemma setHack_same (m : Nat → Hackathon) (id : Nat) (h : Hackathon) :
    setHack m id h id = h := by simp [setHack]

lemma setHack_other (m : Nat → Hackathon) (id : Nat) (h : Hackathon) (j : Nat)
    (hj : j ≠ id) : setHack m id h j = m j := by simp [setHack, hj]

lemma step_fund_ok (s s' : ContractState) (sender value id : Nat) (ev : List Event)
    (heq : fundHackathon s sender value id = .ok (s', ev)) :
    step s (.fund sender value id) = s' := by
  simp [step, stepE, heq]

lemma step_setW_ok (s s' : ContractState) (sender id : Nat) (ws : List Nat) (ev : List Event)
    (heq : setWinners s sender id ws = .ok (s', ev)) :
    step s (.setW sender id ws) = s' := by
  simp [step, stepE, heq]

lemma step_distribute_ok (s s' : ContractState) (sender id : Nat)
    (ev : List Event) (tr : List Action)
    (heq : distributePrizes s sender id = .ok (s', ev, tr)) :
    step s (.distribute sender id) = s' := by
  simp [step, stepE, heq]

lemma step_endH_ok (s s' : ContractState) (sender id : Nat) (ev : List Event)
    (heq : endHackathon s sender id = .ok (s', ev)) :
    step s (.endH sender id) = s' := by
  simp [step, stepE, heq]

lemma step_withdraw_ok (s s' : ContractState) (sender : Nat) (ev : List Event)
    (heq : withdraw s sender = .ok (s', ev)) :
    step s (.withdrawOp sender) = s' := by
  simp [step, stepE, heq]

lemma step_pause (s : ContractState) (sender : Nat) :
    (step s (.pauseOp sender)).hackathons = s.hackathons ∧
    (step s (.pauseOp sender)).activeHackathons = s.activeHackathons := by
  rcases pause_cases s sender with heq | herr
  · simp [step, stepE, heq]
  · cases hE : pause s sender with
    | ok r => rw [hE] at herr; simp [exceptOk] at herr
    | error e => simp [step, stepE, hE]

lemma step_unpause (s : ContractState) (sender : Nat) :
    (step s (.unpauseOp sender)).hackathons = s.hackathons ∧
    (step s (.unpauseOp sender)).activeHackathons = s.activeHackathons := by
  rcases unpause_cases s sender with heq | herr
  · simp [step, stepE, heq]
  · cases hE : unpause s sender with
    | ok r => rw [hE] at herr; simp [exceptOk] at herr
    | error e => simp [step, stepE, hE]

/-- The invariant tying the active index to the per-hackathon flags:
the index has no duplicates, membership is exactly
"funded and not yet distributed", and a distributed hackathon is funded. -/
def IndexInv (s : ContractState) : Prop :=
  s.activeHackathons.Nodup ∧
  (∀ id, id ∈ s.activeHackathons ↔
    ((s.hackathons id).isFunded = true ∧ (s.hackathons id).prizesDistributed = false)) ∧
  (∀ id, (s.hackathons id).prizesDistributed = true → (s.hackathons id).isFunded = true)

lemma IndexInv_init (org : Nat) : IndexInv (initState org) := by
  refine ⟨List.nodup_nil, ?_, ?_⟩ <;> simp [initState, emptyHackathon]

lemma not_ok_of_not_true {α : Type} (r : Except String α)
    (h : ¬ exceptOk r = true) : exceptOk r = false := by
  cases hE : r <;> simp [exceptOk] <;> rw [hE] at h <;> simp [exceptOk] at h

lemma IndexInv_step (s : ContractState) (op : Op) (hinv : IndexInv s) :
    IndexInv (step s op) := by
  obtain ⟨hnd, hmem, hdf⟩ := hinv
  cases op with
  | fund sender value id =>
    by_cases hok : exceptOk (fundHackathon s sender value id) = true
    · obtain ⟨h1, h2, h3, h4⟩ := (fundHackathon_ok_iff s sender value id).mp hok
      have heq := fundHackathon_eq_ok s sender value id h1 h2 h3 h4
      rw [step_fund_ok _ _ _ _ _ _ heq]
      dsimp only [IndexInv]
      have hnotmem : id ∉ s.activeHackathons := by
        intro hc
        exact absurd ((hmem id).mp hc).1 (by simp [h3])
      have hdist : (s.hackathons id).prizesDistributed = false := by
        rcases hb : (s.hackathons id).prizesDistributed with _ | _
        · rfl
        · exact absurd (hdf id hb) (by simp [h3])
      refine ⟨?_, ?_, ?_⟩
      · rw [List.nodup_append]
        exact ⟨hnd, List.nodup_singleton id, by simpa using hnotmem⟩
      · intro j
        by_cases hj : j = id
        · subst hj
          simp [setHack_same, hdist]
        · simp only [List.mem_append, List.mem_singleton, hj, or_false,
            setHack_other _ _ _ _ hj]
          exact hmem j
      · intro j hj
        by_cases hjid : j = id
        · subst hjid
          simp [setHack_same]
        · rw [setHack_other _ _ _ _ hjid] at hj ⊢
          exact hdf j hj
    · rw [step, stepE_fund_error _ _ _ _ (not_ok_of_not_true _ hok)]
      exact ⟨hnd, hmem, hdf⟩
  | setW sender id ws =>
    by_cases hok : exceptOk (setWinners s sender id ws) = true
    · have heq := setWinners_eq_ok s sender id ws hok
      rw [step_setW_ok _ _ _ _ _ _ heq]
      dsimp only [IndexInv]
      refine ⟨hnd, ?_, ?_⟩
      · intro j
        by_cases hj : j = id
        · subst hj
          simpa [setHack_same] using hmem j
        · rw [setHack_other _ _ _ _ hj]
          exact hmem j
      · intro j hj
        by_cases hjid : j = id
        · subst hjid
          rw [setHack_same] at hj ⊢
          exact hdf j (by simpa using hj)
        · rw [setHack_other _ _ _ _ hjid] at hj ⊢
          exact hdf j hj
    · rw [step, stepE_setW_error _ _ _ _ (not_ok_of_not_true _ hok)]
      exact ⟨hnd, hmem, hdf⟩
  | distribute sender id =>
    by_cases hok : exceptOk (distributePrizes s sender id) = true
    · obtain ⟨h1, h2, h3, h4, h5, h6, h7, h8⟩ :=
        (distributePrizes_ok_iff s sender id).mp hok
      have heq := distributePrizes_eq_ok s sender id hok
      rw [step_distribute_ok _ _ _ _ _ _ heq]
      dsimp only [IndexInv]
      refine ⟨removeActive_nodup _ _ hnd, ?_, ?_⟩
      · intro j
        by_cases hj : j = id
        · subst hj
          rw [mem_removeActive _ _ _ hnd, setHack_same]
          simp
        · rw [mem_removeActive _ _ _ hnd, setHack_other _ _ _ _ hj]
          simp only [hj, ne_eq, not_false_iff, and_true]
          exact hmem j
      · intro j hj
        by_cases hjid : j = id
        · subst hjid
          rw [setHack_same] at hj ⊢
          simpa using h4
        · rw [setHack_other _ _ _ _ hjid] at hj ⊢
          exact hdf j hj
    · rw [step, stepE_distribute_error _ _ _ (not_ok_of_not_true _ hok)]
      exact ⟨hnd, hmem, hdf⟩
  | endH sender id =>
    by_cases hok : exceptOk (endHackathon s sender id) = true
    · have heq := endHackathon_eq_ok s sender id hok
      rw [step_endH_ok _ _ _ _ _ heq]
      dsimp only [IndexInv]
      refine ⟨hnd, ?_, ?_⟩
      · intro j
        by_cases hj : j = id
        · subst hj
          simpa [setHack_same] using hmem j
        · rw [setHack_other _ _ _ _ hj]
          exact hmem j
      · intro j hj
        by_cases hjid : j = id
        · subst hjid
          rw [setHack_same] at hj ⊢
          exact hdf j (by simpa using hj)
        · rw [setHack_other _ _ _ _ hjid] at hj ⊢
          exact hdf j hj
    · rw [step, stepE_endH_error _ _ _ (not_ok_of_not_true _ hok)]
      exact ⟨hnd, hmem, hdf⟩
  | withdrawOp sender =>
    by_cases hok : exceptOk (withdraw s sender) = true
    · have heq := withdraw_eq_ok s sender hok
      rw [step_withdraw_ok _ _ _ _ heq]
      exact ⟨hnd, hmem, hdf⟩
    · rw [step, stepE_withdraw_error _ _ (not_ok_of_not_true _ hok)]
      exact ⟨hnd, hmem, hdf⟩
  | pauseOp sender =>
    obtain ⟨hh, ha⟩ := step_pause s sender
    rw [IndexInv, hh, ha]
    exact ⟨hnd, hmem, hdf⟩
  | unpauseOp sender =>
    obtain ⟨hh, ha⟩ := step_unpause s sender
    rw [IndexInv, hh, ha]
    exact ⟨hnd, hmem, hdf⟩
  | receiveOp value => exact ⟨hnd, hmem, hdf⟩

lemma IndexInv_run (s : ContractState) (ops : List Op) (hinv : IndexInv s) :
    IndexInv (run s ops) := by
  induction ops generalizing s with
  | nil => exact hinv
  | cons op ops ih => exact ih (step s op) (IndexInv_step s op hinv)

lemma IndexInv_reachable (org : Nat) (s : ContractState) (h : Reachable org s) :
    IndexInv s := by
  obtain ⟨ops, rfl⟩ := h
  exact IndexInv_run _ _ (IndexInv_init org)

/-! ## Immutability of `totalFunding` once funded -/

lemma step_preserves_funded (s : ContractState) (op : Op) (id : Nat)
    (h : (s.hackathons id).isFunded = true) :
    ((step s op).hackathons id).isFunded = true ∧
    ((step s op).hackathons id).totalFunding = (s.hackathons id).totalFunding := by
  cases op with
  | fund sender value j =>
    by_cases hok : exceptOk (fundHackathon s sender value j) = true
    · obtain ⟨h1, h2, h3, h4⟩ := (fundHackathon_ok_iff s sender value j).mp hok
      have heq := fundHackathon_eq_ok s sender value j h1 h2 h3 h4
      rw [step_fund_ok _ _ _ _ _ _ heq]
      dsimp only
      by_cases hj : id = j
      · subst hj
        rw [h] at h3
        exact absurd h3 (by simp)
      · rw [setHack_other _ _ _ _ hj]
        exact ⟨h, rfl⟩
    · rw [step, stepE_fund_error _ _ _ _ (not_ok_of_not_true _ hok)]
      exact ⟨h, rfl⟩
  | setW sender j ws =>
    by_cases hok : exceptOk (setWinners s sender j ws) = true
    · have heq := setWinners_eq_ok s sender j ws hok
      rw [step_setW_ok _ _ _ _ _ _ heq]
      dsimp only
      by_cases hj : id = j
      · subst hj
        rw [setHack_same]
        exact ⟨h, rfl⟩
      · rw [setHack_other _ _ _ _ hj]
        exact ⟨h, rfl⟩
    · rw [step, stepE_setW_error _ _ _ _ (not_ok_of_not_true _ hok)]
      exact ⟨h, rfl⟩
  | distribute sender j =>
    by_cases hok : exceptOk (distributePrizes s sender j) = true
    · have heq := distributePrizes_eq_ok s sender j hok
      rw [step_distribute_ok _ _ _ _ _ _ heq]
      dsimp only
      by_cases hj : id = j
      · subst hj
        rw [setHack_same]
        exact ⟨h, rfl⟩
      · rw [setHack_other _ _ _ _ hj]
        exact ⟨h, rfl⟩
    · rw [step, stepE_distribute_error _ _ _ (not_ok_of_not_true _ hok)]
      exact ⟨h, rfl⟩
  | endH sender j =>
    by_cases hok : exceptOk (endHackathon s sender j) = true
    · have heq := endHackathon_eq_ok s sender j hok
      rw [step_endH_ok _ _ _ _ _ heq]
      dsimp only
      by_cases hj : id = j
      · subst hj
        rw [setHack_same]
        exact ⟨h, rfl⟩
      · rw [setHack_other _ _ _ _ hj]
        exact ⟨h, rfl⟩
    · rw [step, stepE_endH_error _ _ _ (not_ok_of_not_true _ hok)]
      exact ⟨h, rfl⟩
  | withdrawOp sender =>
    by_cases hok : exceptOk (withdraw s sender) = true
    · have heq := withdraw_eq_ok s sender hok
      rw [step_withdraw_ok _ _ _ _ heq]
      exact ⟨h, rfl⟩
    · rw [step, stepE_withdraw_error _ _ (not_ok_of_not_true _ hok)]
      exact ⟨h, rfl⟩
  | pauseOp sender =>
    rw [(step_pause s sender).1]
    exact ⟨h, rfl⟩
  | unpauseOp sender =>
    rw [(step_unpause s sender).1]
    exact ⟨h, rfl⟩
  | receiveOp value => exact ⟨h, rfl⟩

lemma run_preserves_funded (ops : List Op) (s : ContractState) (id : Nat)
    (h : (s.hackathons id).isFunded = true) :
    ((run s ops).hackathons id).isFunded = true ∧
    ((run s ops).hackathons id).totalFunding = (s.hackathons id).totalFunding := by
  induction ops generalizing s with
  | nil => exact ⟨h, rfl⟩
  | cons op ops ih =>
    have hs := step_preserves_funded s op id h
    have hr := ih (step s op) hs.1
    exact ⟨hr.1, hr.2.trans hs.2⟩

/-! ## Event counting and trace shape -/

lemma countPrize_append (a b : List Event) :
    countPrize (a ++ b) = countPrize a + countPrize b := by
  simp [countPrize, List.filter_append]

lemma countPrize_flatMap (l : List (Nat × Nat)) (id : Nat) :
    countPrize (l.flatMap fun p => safeTransferEvents p.1 p.2 id) =
      if 0 < id then l.length else 0 := by
  induction l with
  | nil => split_ifs <;> simp [countPrize]
  | cons p l ih =>
    rw [List.flatMap_cons, countPrize_append, ih]
    unfold safeTransferEvents
    split_ifs <;> simp [countPrize] <;> omega

lemma payoutShares_length (h : Hackathon)
    (hle : h.winners.length ≤ 3) (hne : h.winners.length ≠ 0) :
    (payoutShares h).length = h.winners.length := by
  unfold payoutShares
  split_ifs with h3 h2
  · simp [h3]
  · simp [h2]
  · simp only [List.length_cons, List.length_nil]
    omega

lemma transferAmounts_append (a b : List Action) :
    transferAmounts (a ++ b) = transferAmounts a ++ transferAmounts b := by
  simp [transferAmounts, List.filterMap_append]

lemma transferAmounts_calls (l : List (Nat × Nat)) :
    transferAmounts (l.map fun p => Action.extCall p.1 p.2) =
      l.map (fun p => p.2) := by
  induction l with
  | nil => rfl
  | cons p l ih => simp only [List.map_cons, transferAmounts, List.filterMap_cons] at *; simp [ih]

lemma transferAmounts_trace (l : List (Nat × Nat)) :
    transferAmounts ((l.map fun p => Action.extCall p.1 p.2)
        ++ [Action.writeDistributed, Action.writeActiveRemove]) =
      l.map (fun p => p.2) := by
  rw [transferAmounts_append, transferAmounts_calls]
  simp [transferAmounts]

lemma callsBeforeWritesB_trace (l : List (Nat × Nat)) :
    callsBeforeWritesB ((l.map fun p => Action.extCall p.1 p.2)
        ++ [Action.writeDistributed, Action.writeActiveRemove]) = true := by
  induction l with
  | nil => rfl
  | cons p l ih => simpa [callsBeforeWritesB, Action.isCall] using ih

/-! ## Handler failure lemmas -/

lemma endHandler_error (db : Option ProjectionRecord) (uid : Nat) (role : String)
    (now : Nat) (e : String) :
    (endHandler db uid role (.error e) now).2 = db ∧
    ((endHandler db uid role (.error e) now).1).isFailure = true := by
  unfold endHandler
  cases db <;> dsimp only <;> split_ifs <;> simp [HandlerResult.isFailure]

lemma fundHandler_error (db : Option ProjectionRecord) (uid : Nat) (role : String)
    (amount now : Nat) (e : String) :
    (fundHandler db uid role amount (.error e) now).2 = db ∧
    ((fundHandler db uid role amount (.error e) now).1).isFailure = true := by
  unfold fundHandler
  cases db <;> dsimp only <;> split_ifs <;> simp [HandlerResult.isFailure]

lemma setWinnersHandler_error (db : Option ProjectionRecord) (uid : Nat)
    (role : String) (ws : List Nat) (isAddress : Nat → Bool) (e : String) :
    (setWinnersHandler db uid role ws isAddress (.error e)).2 = db ∧
    ((setWinnersHandler db uid role ws isAddress (.error e)).1).isFailure = true := by
  unfold setWinnersHandler
  cases db <;> dsimp only <;> split_ifs <;> simp [HandlerResult.isFailure]

lemma distributeHandler_error (db : Option ProjectionRecord) (uid : Nat)
    (role : String) (now : Nat) (e : String) :
    (distributeHandler db uid role (.error e) now).2 = db ∧
    ((distributeHandler db uid role (.error e) now).1).isFailure = true := by
  unfold distributeHandler
  cases db <;> dsimp only <;> split_ifs <;> simp [HandlerResult.isFailure]

/-! ## Claim theorems -/

/-- Claim C1: for every successful Distribute, with 1 winner the single
transfer is 100% of totalFunding; with 2 winners the amounts are
floor(totalFunding*70/100) and the remainder; with 3 winners they are
floor(totalFunding*50/100), floor(totalFunding*30/100) and the remainder;
and the transfer amounts always sum exactly to totalFunding. -/
theorem payout_split_correct (s : ContractState) (sender id : Nat)
    (hok : exceptOk (distributePrizes s sender id) = true) :
    ((s.hackathons id).winners.length = 1 →
      transferAmounts (distActions (distributePrizes s sender id)) =
        [(s.hackathons id).totalFunding]) ∧
    ((s.hackathons id).winners.length = 2 →
      transferAmounts (distActions (distributePrizes s sender id)) =
        [(s.hackathons id).totalFunding * 70 / 100,
         (s.hackathons id).totalFunding - (s.hackathons id).totalFunding * 70 / 100]) ∧
    ((s.hackathons id).winners.length = 3 →
      transferAmounts (distActions (distributePrizes s sender id)) =
        [(s.hackathons id).totalFunding * 50 / 100,
         (s.hackathons id).totalFunding * 30 / 100,
         (s.hackathons id).totalFunding - (s.hackathons id).totalFunding * 50 / 100
           - (s.hackathons id).totalFunding * 30 / 100]) ∧
    (transferAmounts (distActions (distributePrizes s sender id))).sum =
      (s.hackathons id).totalFunding := by
  have heq := distributePrizes_eq_ok s sender id hok
  rw [heq]
  dsimp only [distActions]
  rw [transferAmounts_trace]
  refine ⟨?_, ?_, ?_, ?_⟩
  · intro h1
    unfold payoutShares
    rw [if_neg (by omega), if_neg (by omega)]
    simp
  · intro h2
    unfold payoutShares
    rw [if_neg (by omega), if_pos h2]
    simp
  · intro h3
    unfold payoutShares
    rw [if_pos h3]
    simp
  · rw [payoutShares_sum]

/-- Claim C1 witness: the 101-wei three-winner distribution in `exState`
succeeds, splits as 50/30/21, and sums to totalFunding. -/
theorem payout_split_correct_witness :
    exceptOk (distributePrizes exState 1 2) = true ∧
    (transferAmounts (distActions (distributePrizes exState 1 2))).sum =
      (exState.hackathons 2).totalFunding ∧
    transferAmounts (distActions (distributePrizes exState 1 2)) = [50, 30, 21] :=
  ⟨by decide, (payout_split_correct exState 1 2 (by decide)).2.2.2, by decide⟩

/-- Claim C2 counterexample: in a successful Distribute the external
transfers to the winners execute before the `prizesDistributed` commit, so
it is false that all state changes are committed before any external
transfer: the concrete trace is three calls followed by the two state
writes. -/
theorem state_commit_before_transfer_false :
    exceptOk (distributePrizes exState 1 2) = true ∧
    distActions (distributePrizes exState 1 2) =
      [.extCall 11 50, .extCall 12 30, .extCall 13 21,
       .writeDistributed, .writeActiveRemove] ∧
    writesBeforeCallsB (distActions (distributePrizes exState 1 2)) = false :=
  ⟨by decide, by decide, by decide⟩

/-- Claim C2 amended: during a successful Distribute every payout amount is
computed from the pre-state before any transfer, every external transfer
precedes every state commit (the `prizesDistributed := true` write and the
index removal come after all transfers), and the transfers therefore run
while `prizesDistributed` is still false; reentrancy is excluded by the
`nonReentrant` guard, not by a commit-before-transfer ordering. -/
theorem transfers_precede_state_commits (s : ContractState) (sender id : Nat)
    (hok : exceptOk (distributePrizes s sender id) = true) :
    distActions (distributePrizes s sender id) =
      ((payoutShares (s.hackathons id)).map fun p => Action.extCall p.1 p.2)
        ++ [Action.writeDistributed, Action.writeActiveRemove] ∧
    callsBeforeWritesB (distActions (distributePrizes s sender id)) = true ∧
    transferAmounts (distActions (distributePrizes s sender id)) =
      (payoutShares (s.hackathons id)).map (fun p => p.2) ∧
    (s.hackathons id).prizesDistributed = false := by
  have heq := distributePrizes_eq_ok s sender id hok
  have h6 := ((distributePrizes_ok_iff s sender id).mp hok).2.2.2.2.2.1
  rw [heq]
  dsimp only [distActions]
  exact ⟨rfl, callsBeforeWritesB_trace _, transferAmounts_trace _, h6⟩

/-- Claim C2 amended witness: on the two-winner hackathon `7` the calls all
precede the state commits. -/
theorem transfers_precede_state_commits_witness :
    exceptOk (distributePrizes twoState 1 7) = true ∧
    callsBeforeWritesB (distActions (distributePrizes twoState 1 7)) = true :=
  ⟨by decide, (transfers_precede_state_commits twoState 1 7 (by decide)).2.1⟩

/-- Claim C3: a successful Distribute implies funded, non-empty winners,
not yet distributed, ended, and balance at least totalFunding; whenever any
of these preconditions fails the call reverts with no state change and no
events — in particular, Distribute before End is rejected. -/
theorem distribute_preconditions :
    (∀ s sender id, exceptOk (distributePrizes s sender id) = true →
      (s.hackathons id).isFunded = true ∧
      (s.hackathons id).winners.length ≠ 0 ∧
      (s.hackathons id).prizesDistributed = false ∧
      (s.hackathons id).isEnded = true ∧
      (s.hackathons id).totalFunding ≤ s.balance) ∧
    (∀ s sender id,
      ((s.hackathons id).isFunded = false ∨
       (s.hackathons id).winners.length = 0 ∨
       (s.hackathons id).prizesDistributed = true ∨
       (s.hackathons id).isEnded = false ∨
       s.balance < (s.hackathons id).totalFunding) →
      exceptOk (distributePrizes s sender id) = false ∧
      run s [Op.distribute sender id] = s ∧
      stepEvents s (Op.distribute sender id) = []) := by
  constructor
  · intro s sender id hok
    obtain ⟨-, -, -, h4, h5, h6, h7, h8⟩ := (distributePrizes_ok_iff s sender id).mp hok
    exact ⟨h4, h5, h6, h7, h8⟩
  · intro s sender id hviol
    have hnot : exceptOk (distributePrizes s sender id) = false := by
      cases hb : exceptOk (distributePrizes s sender id) with
      | false => rfl
      | true =>
        obtain ⟨-, -, -, h4, h5, h6, h7, h8⟩ :=
          (distributePrizes_ok_iff s sender id).mp hb
        rcases hviol with h | h | h | h | h <;> simp_all <;> omega
    have hse := stepE_distribute_error s sender id hnot
    exact ⟨hnot, by simp [run, step, hse], by simp [stepEvents, hse]⟩

/-- Claim C3 witness: the successful distribution in `exState` had all five
preconditions; in `notEndedState` (funded, winner set, not ended) the
Distribute reverts with no state change. -/
theorem distribute_preconditions_witness :
    ((exState.hackathons 2).isFunded = true ∧
     (exState.hackathons 2).winners.length ≠ 0 ∧
     (exState.hackathons 2).prizesDistributed = false ∧
     (exState.hackathons 2).isEnded = true ∧
     (exState.hackathons 2).totalFunding ≤ exState.balance) ∧
    (exceptOk (distributePrizes notEndedState 1 3) = false ∧
     run notEndedState [Op.distribute 1 3] = notEndedState ∧
     stepEvents notEndedState (Op.distribute 1 3) = []) :=
  ⟨distribute_preconditions.1 exState 1 2 (by decide),
   distribute_preconditions.2 notEndedState 1 3
     (Or.inr (Or.inr (Or.inr (Or.inl (by decide)))))⟩

/-- Claim C4: the first successful Fund with a positive amount sets
totalFunding to that amount and marks the record funded; every Fund on an
already-funded id reverts with no state change; and once funded, no
sequence of operations ever changes totalFunding or unsets the flag. -/
theorem totalFunding_set_once :
    (∀ s sender value id, sender = s.organizer → s.paused = false →
      (s.hackathons id).isFunded = false → value ≠ 0 →
      exceptOk (fundHackathon s sender value id) = true ∧
      ((run s [Op.fund sender value id]).hackathons id).totalFunding = value ∧
      ((run s [Op.fund sender value id]).hackathons id).isFunded = true) ∧
    (∀ s sender value id, (s.hackathons id).isFunded = true →
      exceptOk (fundHackathon s sender value id) = false ∧
      run s [Op.fund sender value id] = s) ∧
    (∀ s ops id, (s.hackathons id).isFunded = true →
      ((run s ops).hackathons id).totalFunding = (s.hackathons id).totalFunding ∧
      ((run s ops).hackathons id).isFunded = true) := by
  refine ⟨?_, ?_, ?_⟩
  · intro s sender value id h1 h2 h3 h4
    have hok : exceptOk (fundHackathon s sender value id) = true :=
      (fundHackathon_ok_iff s sender value id).mpr ⟨h1, h2, h3, h4⟩
    have heq := fundHackathon_eq_ok s sender value id h1 h2 h3 h4
    have hrun : run s [Op.fund sender value id] = step s (.fund sender value id) := by
      simp [run]
    rw [hrun, step_fund_ok _ _ _ _ _ _ heq]
    dsimp only
    rw [setHack_same]
    exact ⟨hok, rfl, rfl⟩
  · intro s sender value id hf
    have hnot : exceptOk (fundHackathon s sender value id) = false := by
      cases hb : exceptOk (fundHackathon s sender value id) with
      | false => rfl
      | true =>
        obtain ⟨-, -, h3, -⟩ := (fundHackathon_ok_iff s sender value id).mp hb
        rw [hf] at h3
        exact absurd h3 (by simp)
    exact ⟨hnot, by simp [run, step, stepE_fund_error _ _ _ _ hnot]⟩
  · intro s ops id hf
    have h := run_preserves_funded ops s id hf
    exact ⟨h.2, h.1⟩

/-- Claim C4 witness: funding id 6 with 100 wei from scratch sets
totalFunding 100; re-funding the funded id 2 of `exState` fails with no
state change; running a further operation preserves totalFunding. -/
theorem totalFunding_set_once_witness :
    (exceptOk (fundHackathon (initState 1) 1 100 6) = true ∧
     ((run (initState 1) [Op.fund 1 100 6]).hackathons 6).totalFunding = 100 ∧
     ((run (initState 1) [Op.fund 1 100 6]).hackathons 6).isFunded = true) ∧
    (exceptOk (fundHackathon exState 1 55 2) = false ∧
     run exState [Op.fund 1 55 2] = exState) ∧
    (((run exState [Op.withdrawOp 1]).hackathons 2).totalFunding =
       (exState.hackathons 2).totalFunding ∧
     ((run exState [Op.withdrawOp 1]).hackathons 2).isFunded = true) :=
  ⟨totalFunding_set_once.1 (initState 1) 1 100 6 rfl rfl rfl (by decide),
   totalFunding_set_once.2.1 exState 1 55 2 (by decide),
   totalFunding_set_once.2.2 exState [Op.withdrawOp 1] 2 (by decide)⟩

/-- Claim C5: in every reachable state an id is in activeHackathons exactly
when it is funded and not yet distributed; Fund appends the id, Distribute
removes it with the swap-with-last-and-pop loop, and no other operation
modifies the index. -/
theorem active_index_characterization :
    (∀ org s, Reachable org s →
      ∀ id, id ∈ s.activeHackathons ↔
        ((s.hackathons id).isFunded = true ∧
         (s.hackathons id).prizesDistributed = false)) ∧
    (∀ s sender value id, exceptOk (fundHackathon s sender value id) = true →
      (step s (.fund sender value id)).activeHackathons =
        s.activeHackathons ++ [id]) ∧
    (∀ s sender id, exceptOk (distributePrizes s sender id) = true →
      (step s (.distribute sender id)).activeHackathons =
        _removeActiveHackathon s.activeHackathons id) ∧
    (∀ s sender id ws,
      (step s (.setW sender id ws)).activeHackathons = s.activeHackathons) ∧
    (∀ s sender id,
      (step s (.endH sender id)).activeHackathons = s.activeHackathons) ∧
    (∀ s sender,
      (step s (.withdrawOp sender)).activeHackathons = s.activeHackathons) ∧
    (∀ s sender,
      (step s (.pauseOp sender)).activeHackathons = s.activeHackathons) ∧
    (∀ s sender,
      (step s (.unpauseOp sender)).activeHackathons = s.activeHackathons) ∧
    (∀ s value,
      (step s (.receiveOp value)).activeHackathons = s.activeHackathons) := by
  refine ⟨?_, ?_, ?_, ?_, ?_, ?_, ?_, ?_, ?_⟩
  · intro org s hr id
    exact (IndexInv_reachable org s hr).2.1 id
  · intro s sender value id hok
    obtain ⟨h1, h2, h3, h4⟩ := (fundHackathon_ok_iff s sender value id).mp hok
    rw [step_fund_ok _ _ _ _ _ _ (fundHackathon_eq_ok s sender value id h1 h2 h3 h4)]
  · intro s sender id hok
    rw [step_distribute_ok _ _ _ _ _ _ (distributePrizes_eq_ok s sender id hok)]
  · intro s sender id ws
    by_cases hok : exceptOk (setWinners s sender id ws) = true
    · rw [step_setW_ok _ _ _ _ _ _ (setWinners_eq_ok s sender id ws hok)]
    · rw [step, stepE_setW_error _ _ _ _ (not_ok_of_not_true _ hok)]
  · intro s sender id
    by_cases hok : exceptOk (endHackathon s sender id) = true
    · rw [step_endH_ok _ _ _ _ _ (endHackathon_eq_ok s sender id hok)]
    · rw [step, stepE_endH_error _ _ _ (not_ok_of_not_true _ hok)]
  · intro s sender
    by_cases hok : exceptOk (withdraw s sender) = true
    · rw [step_withdraw_ok _ _ _ _ (withdraw_eq_ok s sender hok)]
    · rw [step, stepE_withdraw_error _ _ (not_ok_of_not_true _ hok)]
  · intro s sender
    exact (step_pause s sender).2
  · intro s sender
    exact (step_unpause s sender).2
  · intro s value
    rfl

/-- Claim C5 witness: the reachable `exState` satisfies the membership
equivalence at id 2; a concrete Fund appends and a concrete Distribute
removes via the loop. -/
theorem active_index_characterization_witness :
    (2 ∈ exState.activeHackathons ↔
      ((exState.hackathons 2).isFunded = true ∧
       (exState.hackathons 2).prizesDistributed = false)) ∧
    (step (initState 1) (.fund 1 100 6)).activeHackathons =
      (initState 1).activeHackathons ++ [6] ∧
    (step exState (.distribute 1 2)).activeHackathons =
      _removeActiveHackathon exState.activeHackathons 2 :=
  ⟨active_index_characterization.1 1 exState
     ⟨[.fund 1 101 2, .endH 1 2, .setW 1 2 [11, 12, 13]], rfl⟩ 2,
   active_index_characterization.2.1 (initState 1) 1 100 6 (by decide),
   active_index_characterization.2.2.1 exState 1 2 (by decide)⟩

/-- Claim C6: SetWinners succeeds exactly when the record exists, is
funded, and not distributed (with organizer caller, unpaused) and the list
has length 1 to 3 with nonzero, pairwise-distinct addresses; success
replaces the whole winners list; the success condition does not depend on
previously-set winners (so it is re-invocable before distribution); after
distribution every call fails with no state change. -/
theorem setWinners_validation :
    (∀ s sender id ws, exceptOk (setWinners s sender id ws) = true ↔
      (sender = s.organizer ∧ s.paused = false ∧
       (s.hackathons id).existsFlag = true ∧
       (s.hackathons id).isFunded = true ∧
       (s.hackathons id).prizesDistributed = false ∧
       1 ≤ ws.length ∧ ws.length ≤ 3 ∧ (∀ w ∈ ws, w ≠ 0) ∧ ws.Nodup)) ∧
    (∀ s sender id ws, exceptOk (setWinners s sender id ws) = true →
      ((run s [Op.setW sender id ws]).hackathons id).winners = ws) ∧
    (∀ s sender id ws, (s.hackathons id).prizesDistributed = true →
      exceptOk (setWinners s sender id ws) = false ∧
      run s [Op.setW sender id ws] = s) := by
  refine ⟨setWinners_ok_iff, ?_, ?_⟩
  · intro s sender id ws hok
    have heq := setWinners_eq_ok s sender id ws hok
    have hrun : run s [Op.setW sender id ws] = step s (.setW sender id ws) := by
      simp [run]
    rw [hrun, step_setW_ok _ _ _ _ _ _ heq]
    dsimp only
    rw [setHack_same]
  · intro s sender id ws hd
    have hnot : exceptOk (setWinners s sender id ws) = false := by
      cases hb : exceptOk (setWinners s sender id ws) with
      | false => rfl
      | true =>
        obtain ⟨-, -, -, -, h5, -⟩ := (setWinners_ok_iff s sender id ws).mp hb
        rw [hd] at h5
        exact absurd h5 (by simp)
    exact ⟨hnot, by simp [run, step, stepE_setW_error _ _ _ _ hnot]⟩

/-- Claim C6 witness: re-invoking SetWinners on the funded, undistributed
hackathon 2 replaces the list with the fresh [5, 6]; after distribution
(`distState`) the same call fails with no state change. -/
theorem setWinners_validation_witness :
    ((run exState [Op.setW 1 2 [5, 6]]).hackathons 2).winners = [5, 6] ∧
    (exceptOk (setWinners distState 1 2 [5, 6]) = false ∧
     run distState [Op.setW 1 2 [5, 6]] = distState) :=
  ⟨setWinners_validation.2.1 exState 1 2 [5, 6] (by decide),
   setWinners_validation.2.2 distState 1 2 [5, 6] (by decide)⟩

/-- Claim C7 counterexample: in the freshly deployed state the active index
is empty, the organizer calls while unpaused, and Withdraw still reverts
(zero balance), so an empty index alone does not make Withdraw succeed. -/
theorem withdraw_empty_index_not_sufficient :
    (initState 1).activeHackathons = [] ∧
    (initState 1).organizer = 1 ∧
    (initState 1).paused = false ∧
    withdraw (initState 1) 1 = .error "No funds to withdraw" :=
  ⟨rfl, rfl, rfl, rfl⟩

/-- Claim C7 amended: Withdraw is rejected whenever the active index is
non-empty; when the index is empty, the caller is the organizer, the
contract is unpaused, and the balance is positive, Withdraw succeeds,
transfers the full balance to the organizer, and zeroes the balance; with a
zero balance it is rejected even when the index is empty. -/
theorem withdraw_characterization :
    (∀ s sender, s.activeHackathons ≠ [] →
      exceptOk (withdraw s sender) = false ∧ run s [Op.withdrawOp sender] = s) ∧
    (∀ s sender, sender = s.organizer → s.paused = false →
      s.activeHackathons = [] → s.balance ≠ 0 →
      withdraw s sender =
        .ok ({ s with balance := 0 }, [.Withdrawn s.organizer s.balance])) ∧
    (∀ s sender, s.balance = 0 → exceptOk (withdraw s sender) = false) := by
  refine ⟨?_, ?_, ?_⟩
  · intro s sender hne
    have hnot : exceptOk (withdraw s sender) = false := by
      cases hb : exceptOk (withdraw s sender) with
      | false => rfl
      | true =>
        obtain ⟨-, -, h3, -⟩ := (withdraw_ok_iff s sender).mp hb
        exact absurd h3 hne
    exact ⟨hnot, by simp [run, step, stepE_withdraw_error _ _ hnot]⟩
  · intro s sender h1 h2 h3 h4
    exact withdraw_eq_ok s sender ((withdraw_ok_iff s sender).mpr ⟨h1, h2, h3, h4⟩)
  · intro s sender hb0
    cases hb : exceptOk (withdraw s sender) with
    | false => rfl
    | true =>
      obtain ⟨-, -, -, h4⟩ := (withdraw_ok_iff s sender).mp hb
      exact absurd hb0 h4

/-- Claim C7 amended witness: with the funded, undistributed hackathon 2
active, Withdraw is rejected; after a 42-wei direct deposit on a state with
an empty index, Withdraw succeeds and zeroes the balance. -/
theorem withdraw_characterization_witness :
    (exceptOk (withdraw exState 1) = false ∧
     run exState [Op.withdrawOp 1] = exState) ∧
    withdraw wState 1 =
      .ok ({ wState with balance := 0 }, [.Withdrawn wState.organizer wState.balance]) :=
  ⟨withdraw_characterization.1 exState 1 (by decide),
   withdraw_characterization.2.1 wState 1 rfl rfl rfl (by decide)⟩

/-- Claim C8 counterexample: the successful Distribute of hackathon 0 (one
winner) emits zero PrizeDistributed events, because `_safeTransfer` only
emits when `hackathonId > 0`. -/
theorem prize_event_suppressed_at_id_zero :
    exceptOk (distributePrizes zState 1 0) = true ∧
    (zState.hackathons 0).winners.length = 1 ∧
    countPrize (distEvents (distributePrizes zState 1 0)) = 0 :=
  ⟨by decide, by decide, by decide⟩

/-- Claim C8 amended: for every id > 0 a successful Distribute emits
exactly one PrizeDistributed event per transfer — with at most 3 winners,
exactly winners.length events; for id = 0 the events are suppressed and
none is emitted. -/
theorem prize_event_per_payout :
    (∀ s sender id, 0 < id →
      exceptOk (distributePrizes s sender id) = true →
      (s.hackathons id).winners.length ≤ 3 →
      countPrize (distEvents (distributePrizes s sender id)) =
        (s.hackathons id).winners.length) ∧
    (∀ s sender, exceptOk (distributePrizes s sender 0) = true →
      countPrize (distEvents (distributePrizes s sender 0)) = 0) := by
  constructor
  · intro s sender id hid hok hle
    have h5 := ((distributePrizes_ok_iff s sender id).mp hok).2.2.2.2.1
    rw [distributePrizes_eq_ok s sender id hok]
    dsimp only [distEvents]
    rw [countPrize_flatMap, if_pos hid, payoutShares_length _ hle h5]
  · intro s sender hok
    rw [distributePrizes_eq_ok s sender 0 hok]
    dsimp only [distEvents]
    rw [countPrize_flatMap]
    simp

/-- Claim C8 amended witness: distributing hackathon 2 (three winners)
emits exactly 3 PrizeDistributed events; distributing hackathon 0 emits
none. -/
theorem prize_event_per_payout_witness :
    countPrize (distEvents (distributePrizes exState 1 2)) =
      (exState.hackathons 2).winners.length ∧
    countPrize (distEvents (distributePrizes zState 1 0)) = 0 :=
  ⟨prize_event_per_payout.1 exState 1 2 (by decide) (by decide) (by decide),
   prize_event_per_payout.2 zState 1 (by decide)⟩

/-- Claim C9: for each settlement handler (end, fund, set-winners,
distribute), a failed ledger submission or confirmation (including a
timeout, modelled as the thrown-error outcome) leaves the projection row
exactly as it was read and surfaces a failure response; the projection row
changes only when the ledger operation confirmed. -/
theorem projection_write_after_confirm :
    (∀ db uid role lg now e, lg = .error e →
      (endHandler db uid role lg now).2 = db ∧
      ((endHandler db uid role lg now).1).isFailure = true) ∧
    (∀ db uid role amount lg now e, lg = .error e →
      (fundHandler db uid role amount lg now).2 = db ∧
      ((fundHandler db uid role amount lg now).1).isFailure = true) ∧
    (∀ db uid role ws isA lg e, lg = .error e →
      (setWinnersHandler db uid role ws isA lg).2 = db ∧
      ((setWinnersHandler db uid role ws isA lg).1).isFailure = true) ∧
    (∀ db uid role lg now e, lg = .error e →
      (distributeHandler db uid role lg now).2 = db ∧
      ((distributeHandler db uid role lg now).1).isFailure = true) ∧
    (∀ db uid role lg now, (endHandler db uid role lg now).2 ≠ db → lg = .ok ()) ∧
    (∀ db uid role amount lg now,
      (fundHandler db uid role amount lg now).2 ≠ db → lg = .ok ()) ∧
    (∀ db uid role ws isA lg,
      (setWinnersHandler db uid role ws isA lg).2 ≠ db → lg = .ok ()) ∧
    (∀ db uid role lg now,
      (distributeHandler db uid role lg now).2 ≠ db → lg = .ok ()) := by
  refine ⟨?_, ?_, ?_, ?_, ?_, ?_, ?_, ?_⟩
  · rintro db uid role lg now e rfl
    exact endHandler_error db uid role now e
  · rintro db uid role amount lg now e rfl
    exact fundHandler_error db uid role amount now e
  · rintro db uid role ws isA lg e rfl
    exact setWinnersHandler_error db uid role ws isA e
  · rintro db uid role lg now e rfl
    exact distributeHandler_error db uid role now e
  · intro db uid role lg now hne
    cases lg with
    | ok u => cases u; rfl
    | error e => exact absurd (endHandler_error db uid role now e).1 hne
  · intro db uid role amount lg now hne
    cases lg with
    | ok u => cases u; rfl
    | error e => exact absurd (fundHandler_error db uid role amount now e).1 hne
  · intro db uid role ws isA lg hne
    cases lg with
    | ok u => cases u; rfl
    | error e => exact absurd (setWinnersHandler_error db uid role ws isA e).1 hne
  · intro db uid role lg now hne
    cases lg with
    | ok u => cases u; rfl
    | error e => exact absurd (distributeHandler_error db uid role now e).1 hne

/-- Claim C9 witness: a simulated confirmation timeout on the end and fund
handlers leaves the concrete projection row `exProj` unchanged and yields a
failure response. -/
theorem projection_write_after_confirm_witness :
    (endHandler (some exProj) 9 "organizer" (.error "timeout") 7).2 = some exProj ∧
    ((endHandler (some exProj) 9 "organizer" (.error "timeout") 7).1).isFailure = true ∧
    (fundHandler (some exProj) 9 "organizer" 100 (.error "timeout") 7).2 = some exProj :=
  ⟨(projection_write_after_confirm.1 (some exProj) 9 "organizer" _ 7 "timeout" rfl).1,
   (projection_write_after_confirm.1 (some exProj) 9 "organizer" _ 7 "timeout" rfl).2,
   (projection_write_after_confirm.2.1 (some exProj) 9 "organizer" 100 _ 7 "timeout" rfl).1⟩

/-- Claim C10: when a Fund call violates a precondition (wrong caller,
paused contract, or zero amount) the whole call reverts: the auto-creation
is rolled back, the exists flag is exactly what it was before, and no event
— HackathonCreated included — is durably observed, even though the source
sets the flag and emits the event before checking the amount. -/
theorem fund_autocreation_rollback :
    ∀ s sender value id,
      (sender ≠ s.organizer ∨ s.paused = true ∨ value = 0) →
      exceptOk (fundHackathon s sender value id) = false ∧
      run s [Op.fund sender value id] = s ∧
      stepEvents s (Op.fund sender value id) = [] ∧
      ((run s [Op.fund sender value id]).hackathons id).existsFlag =
        (s.hackathons id).existsFlag := by
  intro s sender value id hviol
  have hnot : exceptOk (fundHackathon s sender value id) = false := by
    cases hb : exceptOk (fundHackathon s sender value id) with
    | false => rfl
    | true =>
      obtain ⟨h1, h2, -, h4⟩ := (fundHackathon_ok_iff s sender value id).mp hb
      rcases hviol with h | h | h
      · exact absurd h1 h
      · rw [h] at h2
        exact absurd h2 (by simp)
      · exact absurd h h4
  have hse := stepE_fund_error s sender value id hnot
  have hrun : run s [Op.fund sender value id] = s := by simp [run, step, hse]
  refine ⟨hnot, hrun, by simp [stepEvents, hse], ?_⟩
  rw [hrun]

/-- Claim C10 witness: the very first Fund of the fresh id 5 with zero
amount reverts; afterwards the record still does not exist and no event was
observed. -/
theorem fund_autocreation_rollback_witness :
    exceptOk (fundHackathon (initState 1) 1 0 5) = false ∧
    run (initState 1) [Op.fund 1 0 5] = initState 1 ∧
    stepEvents (initState 1) (Op.fund 1 0 5) = [] ∧
    ((run (initState 1) [Op.fund 1 0 5]).hackathons 5).existsFlag =
      ((initState 1).hackathons 5).existsFlag ∧
    ((initState 1).hackathons 5).existsFlag = false := by
  have h := fund_autocreation_rollback (initState 1) 1 0 5 (Or.inr (Or.inr rfl))
  exact ⟨h.1, h.2.1, h.2.2.1, h.2.2.2, by decide⟩

end BlockHunt
